import Mathlib

/-!
Verification development for the Gooclaim medical-coding agent (`app.py`).

The program is embedded shallowly: Python strings become `String` viewed as
its list of code points, `str.lower`/`str.upper` become character-wise case
maps (the notes handled by the program are ASCII), `str.find` becomes
`listFind`, the `in` operator becomes `strContains`, Python dicts with fixed
key sets become structures, optional envelope fields become `Option`, and
the process-wide `uuid` source is abstracted as explicit suffix parameters
of the assembler.  Float confidences are modelled as exact rationals; the
program only stores and compares these constants, never does arithmetic on
them.
-/

namespace Gooclaim

/-! ### Python string primitives -/

/-- Python `str.find(pat)` over the character list: index of the first
occurrence of `pat`, `none` when absent (Python returns `-1`). -/
def listFind (pat : List Char) : List Char → Option Nat
  | [] => if pat.isPrefixOf [] then some 0 else none
  | c :: t => if pat.isPrefixOf (c :: t) then some 0 else (listFind pat t).map (· + 1)

/-- Containment of one character list in another, Python `pat in hay`. -/
def listContains (hay pat : List Char) : Bool :=
  (listFind pat hay).isSome

/-- Python `pat in hay` on strings. -/
def strContains (hay pat : String) : Bool :=
  listContains hay.data pat.data

/-- Python `str.lower()` (character-wise; ASCII). -/
def lowerStr (s : String) : String :=
  ⟨s.data.map Char.toLower⟩

/-- Python `str.upper()` (character-wise; ASCII). -/
def upperStr (s : String) : String :=
  ⟨s.data.map Char.toUpper⟩

/-! ### Code catalog (CPT_MAP / HCPCS_MAP entries used by the rules) -/

/-- One `{code, display, system}` dict of `CPT_MAP` / `HCPCS_MAP`, and the
element shape of the `procedures` / `hcpcs` result lists. -/
structure CodeEntry where
  code : String
  display : String
  system : String
deriving DecidableEq, Repr

def cpt_chest_xray_single_view : CodeEntry :=
  ⟨"71045", "Radiologic examination, chest; single view", "http://www.ama-assn.org/go/cpt"⟩

def cpt_chest_xray_two_views : CodeEntry :=
  ⟨"71046", "Radiologic examination, chest; 2 views", "http://www.ama-assn.org/go/cpt"⟩

def cpt_em_99213_ref : CodeEntry :=
  ⟨"99213", "Office/outpatient visit, established patient, low MDM", "http://www.ama-assn.org/go/cpt"⟩

def cpt_nebulizer_treatment : CodeEntry :=
  ⟨"94640", "Pressurized or nonpressurized inhalation treatment for acute airway obstruction", "http://www.ama-assn.org/go/cpt"⟩

def cpt_therapeutic_injection : CodeEntry :=
  ⟨"96372", "Therapeutic, prophylactic, or diagnostic injection; subcutaneous or intramuscular", "http://www.ama-assn.org/go/cpt"⟩

def hcpcs_albuterol_neb : CodeEntry :=
  ⟨"J7613", "Albuterol, inhalation solution, FDA-approved final product, non-compounded, 1 mg", "https://www.cms.gov/mcd/hcpcs"⟩

def hcpcs_ceftriaxone_inj : CodeEntry :=
  ⟨"J0696", "Injection, ceftriaxone sodium, per 250 mg", "https://www.cms.gov/mcd/hcpcs"⟩

def hcpcs_dexamethasone_inj : CodeEntry :=
  ⟨"J1100", "Injection, dexamethasone sodium phosphate, 1 mg", "https://www.cms.gov/mcd/hcpcs"⟩

def PERFORMED_HINTS : List String :=
  ["performed", "done", "completed", "administered", "given", "provided", "carried out",
   "obtained", "obtained in clinic", "obtained today"]

/-! ### Rule engine -/

/-- `present(text, *terms)`: every term is a substring of the lower-cased text. -/
def present (text : String) (terms : List String) : Bool :=
  terms.all fun t => strContains (lowerStr text) t

/-- `near(text, a, b, window)`: `b` appears within the slice of `window`
characters around the first occurrence of `a` (both lower-cased). -/
def near (text a b : String) (window : Nat) : Bool :=
  let low := lowerStr text
  match listFind (lowerStr a).data low.data with
  | none => false
  | some a_idx =>
    let start := a_idx - window
    let stop := min low.data.length (a_idx + a.length + window)
    listContains ((low.data.drop start).take (stop - start)) (lowerStr b).data

/-- `detect_performed_cxr(note)`. -/
def detect_performed_cxr (note : String) : Option CodeEntry :=
  let low := lowerStr note
  if strContains low "x-ray" || strContains low "xray" || strContains low "cxr" then
    if PERFORMED_HINTS.any (fun h =>
        near low "x-ray" h 40 || near low "xray" h 40 || near low "cxr" h 40) then
      if strContains low "two views" || strContains low "2 views" ||
          strContains low "pa and lateral" then
        some cpt_chest_xray_two_views
      else
        some cpt_chest_xray_single_view
    else none
  else none

/-- `detect_nebulizer_and_drug(note)`. -/
def detect_nebulizer_and_drug (note : String) : Option CodeEntry × Option CodeEntry :=
  let low := lowerStr note
  let performed := PERFORMED_HINTS.any fun h => strContains low h
  if (strContains low "nebulizer" || strContains low "neb") && performed then
    (some cpt_nebulizer_treatment,
     if strContains low "albuterol" then some hcpcs_albuterol_neb else none)
  else (none, none)

/-- `detect_injection_and_drug(note)`. -/
def detect_injection_and_drug (note : String) : Option CodeEntry × Option CodeEntry :=
  let low := lowerStr note
  if (strContains low "intramuscular" || strContains low "im injection" ||
      strContains low "injection given" || strContains low "shot given") &&
      PERFORMED_HINTS.any (fun h => strContains low h) then
    if strContains low "ceftriaxone" then
      (some cpt_therapeutic_injection, some hcpcs_ceftriaxone_inj)
    else if strContains low "dexamethasone" then
      (some cpt_therapeutic_injection, some hcpcs_dexamethasone_inj)
    else
      (some cpt_therapeutic_injection, none)
  else (none, none)

/-! ### tiny_rules -/

/-- One ICD-10 diagnosis dict appended by `tiny_rules`. -/
structure DxEntry where
  code : String
  display : String
  system : String
  rank : Nat
  confidence : ℚ
  rationale : String
deriving DecidableEq, Repr

def dx_acute_bronchitis : DxEntry :=
  ⟨"J20.9", "Acute bronchitis, unspecified organism", "http://hl7.org/fhir/sid/icd-10-cm",
   1, 0.72, "Acute cough + fever/wheeze/SOB; outpatient; antibiotic prescribed."⟩

def dx_wheezing : DxEntry :=
  ⟨"R06.2", "Wheezing", "http://hl7.org/fhir/sid/icd-10-cm", 2, 0.62, "Documented wheezing."⟩

def dx_shortness_of_breath : DxEntry :=
  ⟨"R06.02", "Shortness of breath", "http://hl7.org/fhir/sid/icd-10-cm", 3, 0.60, "Documented SOB."⟩

def dx_fever : DxEntry :=
  ⟨"R50.9", "Fever, unspecified", "http://hl7.org/fhir/sid/icd-10-cm", 4, 0.58, "Documented fever."⟩

def dx_cough : DxEntry :=
  ⟨"R05.9", "Cough, unspecified", "http://hl7.org/fhir/sid/icd-10-cm", 5, 0.56, "Documented cough."⟩

/-- The `cpt_em` dict of `tiny_rules`. -/
structure CptEm where
  code : String
  display : String
  system : String
  assumed_patient_status : String
  confidence : ℚ
  rationale : String
deriving DecidableEq, Repr

def cpt_em_default : CptEm :=
  ⟨"99213", "Office or other outpatient visit for an established patient, low MDM",
   "http://www.ama-assn.org/go/cpt", "established", 0.58,
   "Acute uncomplicated illness, outpatient management."⟩

/-! ### Intake envelope -/

structure PatientInfo where
  mrn : Option String
  last_name : Option String
  first_name : Option String
  sex : Option String
  dob : Option String
  payer_name : Option String
deriving DecidableEq, Repr

structure EncounterInfo where
  date : Option String
  location_npi : Option String
  provider_npi : Option String
deriving DecidableEq, Repr

structure ClinicalNote where
  text_preview : Option String
deriving DecidableEq, Repr

structure MetaInfo where
  source : Option String
deriving DecidableEq, Repr

structure Envelope where
  patient : Option PatientInfo
  encounter : Option EncounterInfo
  clinical_note : Option ClinicalNote
  claim_id : Option String
  meta : Option MetaInfo
deriving DecidableEq, Repr

/-- The tuple returned by `tiny_rules`. -/
structure DetectionResult where
  icd10 : List DxEntry
  cpt_em : CptEm
  procedures : List CodeEntry
  hcpcs : List CodeEntry
deriving DecidableEq, Repr

/-- `tiny_rules(envelope)`. -/
def tiny_rules (envelope : Envelope) : DetectionResult :=
  let note : String :=
    match envelope.clinical_note with
    | some cn => cn.text_preview.getD ""
    | none => ""
  let low := lowerStr note
  let icd10 : List DxEntry :=
    (if present low ["cough"] &&
        (present low ["wheez"] || present low ["shortness of breath"]) &&
        (present low ["fever"] || present low ["azithromycin"]) then
       [dx_acute_bronchitis] else [])
    ++ (if strContains low "wheez" then [dx_wheezing] else [])
    ++ (if strContains low "shortness of breath" then [dx_shortness_of_breath] else [])
    ++ (if strContains low "fever" then [dx_fever] else [])
    ++ (if strContains low "cough" then [dx_cough] else [])
  let procedures : List CodeEntry :=
    (detect_performed_cxr note).toList
    ++ ((detect_nebulizer_and_drug note).1).toList
    ++ ((detect_injection_and_drug note).1).toList
  let hcpcs : List CodeEntry :=
    ((detect_nebulizer_and_drug note).2).toList
    ++ ((detect_injection_and_drug note).2).toList
  ⟨icd10, cpt_em_default, procedures, hcpcs⟩

/-! ### FHIR output resources -/

/-- A FHIR reference object, `{"reference": "Type/id"}`. -/
structure Ref where
  reference : String
deriving DecidableEq, Repr

def fhir_ref (resource_type : String) (rid : String) : Ref :=
  ⟨resource_type ++ "/" ++ rid⟩

structure Coding where
  system : String
  code : String
  display : String
deriving DecidableEq, Repr

structure CodeableConcept where
  coding : List Coding
  text : String
deriving DecidableEq, Repr

/-- The Patient resource; `mrn` is the `urn:mrn` identifier value. -/
structure FhirPatient where
  id : String
  mrn : String
  family : String
  given : List String
  gender : String
  birthDate : String
deriving DecidableEq, Repr

/-- The Encounter resource; the period start/end carry `encounter.get("date")`,
which has no default and is null when the date is absent. -/
structure FhirEncounter where
  id : String
  status : String
  class_code : String
  subject : Ref
  period_start : Option String
  period_end : Option String
  serviceProvider_npi : String
deriving DecidableEq, Repr

/-- One Condition resource; the `note_*` fields carry the rank/confidence/
rationale values rendered into its single note annotation. -/
structure FhirCondition where
  id : String
  subject : Ref
  encounter : Ref
  code : CodeableConcept
  verificationStatus : String
  clinicalStatus : String
  note_rank : Nat
  note_confidence : ℚ
  note_rationale : String
deriving DecidableEq, Repr

structure ClaimDiagnosis where
  sequence : Nat
  diagnosisReference : Ref
  type_code : String
deriving DecidableEq, Repr

structure ClaimProcedure where
  sequence : Nat
  date : Option String
  procedureCodeableConcept : List Coding
deriving DecidableEq, Repr

structure ClaimItem where
  sequence : Nat
  productOrService : CodeableConcept
  servicedDate : Option String
  encounter : List Ref
deriving DecidableEq, Repr

/-- One supportingInfo entry; the status/confidence pair carries the values
rendered into its `valueString`. -/
structure SupportingInfo where
  sequence : Nat
  category_code : String
  assumed_patient_status : String
  confidence : ℚ
deriving DecidableEq, Repr

/-- The Claim resource; `ext_claim_id_input` / `ext_source` carry the two
`urn:gooclaim:meta` extension values. -/
structure FhirClaim where
  id : String
  status : String
  type_code : String
  use : String
  patient : Ref
  created : String
  enterer_npi : String
  insurer_display : String
  priority_code : String
  diagnosis : List ClaimDiagnosis
  procedure : List ClaimProcedure
  item : List ClaimItem
  supportingInfo : List SupportingInfo
  ext_claim_id_input : String
  ext_source : String
deriving DecidableEq, Repr

inductive Resource where
  | patient : FhirPatient → Resource
  | encounter : FhirEncounter → Resource
  | claim : FhirClaim → Resource
  | condition : FhirCondition → Resource
deriving DecidableEq, Repr

structure Bundle where
  bundle_type : String
  id : String
  timestamp : String
  entry : List Resource
deriving DecidableEq, Repr

/-! ### FHIR builders -/

/-- The `{"M":"male","F":"female"}.get(sex.upper(), "unknown")` mapping. -/
def sex_to_gender (sex : String) : String :=
  let u := upperStr sex
  if u = "M" then "male" else if u = "F" then "female" else "unknown"

/-- The `for idx, d in enumerate(icd10, start=1)` loop: one Condition and one
`Claim.diagnosis` entry per diagnosis, with a fresh `cond-` identifier each. -/
def build_conditions (pat_id enc_id : String) (condSuffix : Nat → String) :
    Nat → List DxEntry → List FhirCondition × List ClaimDiagnosis
  | _, [] => ([], [])
  | idx, d :: rest =>
    let cond_id := "cond-" ++ condSuffix idx
    let condition : FhirCondition :=
      { id := cond_id
        subject := fhir_ref "Patient" pat_id
        encounter := fhir_ref "Encounter" enc_id
        code := ⟨[⟨d.system, d.code, d.display⟩], d.display⟩
        verificationStatus := "confirmed"
        clinicalStatus := "active"
        note_rank := d.rank
        note_confidence := d.confidence
        note_rationale := d.rationale }
    let cd : ClaimDiagnosis :=
      { sequence := idx
        diagnosisReference := fhir_ref "Condition" cond_id
        type_code := if idx = 1 then "principal" else "additional" }
    let rest' := build_conditions pat_id enc_id condSuffix (idx + 1) rest
    (condition :: rest'.1, cd :: rest'.2)

/-- One `Claim.item` line as appended by `build_fhir_bundle`. -/
def mk_item (enc_id : String) (date : Option String) (seq : Nat)
    (system code display : String) : ClaimItem :=
  { sequence := seq
    productOrService := ⟨[⟨system, code, display⟩], display⟩
    servicedDate := date
    encounter := [fhir_ref "Encounter" enc_id] }

/-- An append loop over code entries; each new line gets sequence
`len(claim["item"]) + 1`, so `prevLen` tracks the item count so far. -/
def build_items (enc_id : String) (date : Option String) :
    Nat → List CodeEntry → List ClaimItem
  | _, [] => []
  | prevLen, p :: rest =>
    mk_item enc_id date (prevLen + 1) p.system p.code p.display
      :: build_items enc_id date (prevLen + 1) rest

/-- The `for i, p in enumerate(procedures, start=1)` loop filling
`Claim.procedure`. -/
def build_claim_procedures (date : Option String) :
    Nat → List CodeEntry → List ClaimProcedure
  | _, [] => []
  | i, p :: rest =>
    ⟨i, date, [⟨p.system, p.code, p.display⟩]⟩ :: build_claim_procedures date (i + 1) rest

/-- `build_fhir_bundle(envelope, icd10, cpt_em, procedures, hcpcs)`.  The
`uuid.uuid4().hex[:8]` draws and the two `datetime.utcnow()` strings are
abstracted as the trailing parameters. -/
def build_fhir_bundle (envelope : Envelope) (icd10 : List DxEntry) (cpt_em : CptEm)
    (procedures : List CodeEntry) (hcpcs : List CodeEntry)
    (patSuffix encSuffix clmSuffix : String) (condSuffix : Nat → String)
    (created : String) (bundleSuffix : String) (timestamp : String) : Bundle :=
  let pat_id := "pat-" ++ patSuffix
  let enc_id := "enc-" ++ encSuffix
  let clm_id := "clm-" ++ clmSuffix
  let patient := envelope.patient.getD ⟨none, none, none, none, none, none⟩
  let encounter := envelope.encounter.getD ⟨none, none, none⟩
  let claim_id_input :=
    match envelope.claim_id with
    | some s => if s = "" then clm_id else s
    | none => clm_id
  let fhir_patient : FhirPatient :=
    { id := pat_id
      mrn := patient.mrn.getD ""
      family := patient.last_name.getD ""
      given := [patient.first_name.getD ""]
      gender := sex_to_gender (patient.sex.getD "")
      birthDate := patient.dob.getD "" }
  let fhir_encounter : FhirEncounter :=
    { id := enc_id
      status := "finished"
      class_code := "AMB"
      subject := fhir_ref "Patient" pat_id
      period_start := encounter.date
      period_end := encounter.date
      serviceProvider_npi := encounter.location_npi.getD "" }
  let conds := build_conditions pat_id enc_id condSuffix 1 icd10
  let em_items : List ClaimItem :=
    if cpt_em.code = "" then []
    else [mk_item enc_id encounter.date 1 cpt_em.system cpt_em.code cpt_em.display]
  let em_support : List SupportingInfo :=
    if cpt_em.code = "" then []
    else [⟨1, "info", cpt_em.assumed_patient_status, cpt_em.confidence⟩]
  let claim : FhirClaim :=
    { id := clm_id
      status := "active"
      type_code := "professional"
      use := "claim"
      patient := fhir_ref "Patient" pat_id
      created := created
      enterer_npi := encounter.provider_npi.getD ""
      insurer_display := patient.payer_name.getD ""
      priority_code := "normal"
      diagnosis := conds.2
      procedure := build_claim_procedures encounter.date 1 procedures
      item := em_items
        ++ build_items enc_id encounter.date em_items.length procedures
        ++ build_items enc_id encounter.date (em_items.length + procedures.length) hcpcs
      supportingInfo := em_support
      ext_claim_id_input := claim_id_input
      ext_source :=
        match envelope.meta with
        | some m => m.source.getD ""
        | none => "" }
  { bundle_type := "collection"
    id := "bundle-" ++ bundleSuffix
    timestamp := timestamp
    entry := [Resource.patient fhir_patient, Resource.encounter fhir_encounter,
              Resource.claim claim] ++ conds.1.map Resource.condition }

/-- The UI composition (`tiny_rules` then `build_fhir_bundle`), the two core
entry points chained on one envelope. -/
def run_coding_agent (envelope : Envelope)
    (patSuffix encSuffix clmSuffix : String) (condSuffix : Nat → String)
    (created : String) (bundleSuffix : String) (timestamp : String) : Bundle :=
  let r := tiny_rules envelope
  build_fhir_bundle envelope r.icd10 r.cpt_em r.procedures r.hcpcs
    patSuffix encSuffix clmSuffix condSuffix created bundleSuffix timestamp

/-! ### Bundle accessors -/

def Bundle.patients (b : Bundle) : List FhirPatient :=
  b.entry.filterMap fun r => match r with | .patient p => some p | _ => none

def Bundle.encounters (b : Bundle) : List FhirEncounter :=
  b.entry.filterMap fun r => match r with | .encounter e => some e | _ => none

def Bundle.fhirClaims (b : Bundle) : List FhirClaim :=
  b.entry.filterMap fun r => match r with | .claim c => some c | _ => none

def Bundle.conditions (b : Bundle) : List FhirCondition :=
  b.entry.filterMap fun r => match r with | .condition c => some c | _ => none

/-- The first Claim resource of a bundle. -/
def Bundle.theClaim (b : Bundle) : Option FhirClaim :=
  b.fhirClaims.head?

/-- The first Patient resource of a bundle. -/
def Bundle.thePatient (b : Bundle) : Option FhirPatient :=
  b.patients.head?

/-- The first Encounter resource of a bundle. -/
def Bundle.theEncounter (b : Bundle) : Option FhirEncounter :=
  b.encounters.head?

/-- The `Type/id` string a resource is addressed by inside its bundle. -/
def resourceRefString : Resource → String
  | .patient p => "Patient/" ++ p.id
  | .encounter e => "Encounter/" ++ e.id
  | .claim c => "Claim/" ++ c.id
  | .condition c => "Condition/" ++ c.id

/-- Every reference string contained in the bundle: the Encounter subject,
the Claim patient, each `Claim.diagnosis` diagnosisReference, each
`Claim.item` encounter reference, and each Condition subject/encounter. -/
def Bundle.refs (b : Bundle) : List Ref :=
  b.entry.flatMap fun r =>
    match r with
    | .patient _ => []
    | .encounter e => [e.subject]
    | .claim c =>
      [c.patient] ++ c.diagnosis.map (·.diagnosisReference)
        ++ c.item.flatMap (·.encounter)
    | .condition c => [c.subject, c.encounter]

/-- A reference resolves when some resource of the bundle is addressed by
exactly its reference string. -/
def Bundle.resolves (b : Bundle) (r : Ref) : Bool :=
  b.entry.any fun res => resourceRefString res == r.reference

/-! ### String-scanning lemmas -/

theorem char_toNat_ofNat_valid (n : Nat) (h : n.isValidChar) : (Char.ofNat n).toNat = n := by
  rw [Char.ofNat, dif_pos h]
  simp [Char.ofNatAux, Char.toNat, UInt32.toNat]

theorem char_toLower_idem (c : Char) : c.toLower.toLower = c.toLower := by
  unfold Char.toLower
  by_cases h : c.toNat ≥ 65 ∧ c.toNat ≤ 90
  · rw [if_pos h]
    have hv : (Char.ofNat (c.toNat + 32)).toNat = c.toNat + 32 :=
      char_toNat_ofNat_valid _ (Or.inl (by omega))
    rw [if_neg (by rw [hv]; omega)]
  · rw [if_neg h, if_neg h]

theorem lowerStr_idem (s : String) : lowerStr (lowerStr s) = lowerStr s := by
  simp [lowerStr, List.map_map, Function.comp_def, char_toLower_idem]

/-- `listFind` returns an occurrence: the pattern is a prefix of the suffix at
the returned index, and of no earlier suffix. -/
theorem listFind_some (pat : List Char) :
    ∀ hay i, listFind pat hay = some i →
      pat <+: hay.drop i ∧ ∀ j < i, ¬ pat <+: hay.drop j := by
  intro hay
  induction hay with
  | nil =>
    intro i h
    rw [listFind] at h
    split at h
    · cases h
      exact ⟨List.isPrefixOf_iff_prefix.mp (by assumption), by omega⟩
    · cases h
  | cons c t ih =>
    intro i h
    rw [listFind] at h
    split at h
    · cases h
      exact ⟨List.isPrefixOf_iff_prefix.mp (by assumption), by omega⟩
    · rcases Option.map_eq_some'.mp h with ⟨i', hi', rfl⟩
      rcases ih i' hi' with ⟨hpre, hmin⟩
      refine ⟨hpre, ?_⟩
      intro j hj
      match j with
      | 0 =>
        intro hcon
        exact absurd (List.isPrefixOf_iff_prefix.mpr hcon) (by assumption)
      | Nat.succ j' =>
        exact hmin j' (by omega)

/-- When `listFind` fails, the pattern prefixes no suffix of the haystack. -/
theorem listFind_none (pat : List Char) :
    ∀ hay, listFind pat hay = none → ∀ j, ¬ pat <+: hay.drop j := by
  intro hay
  induction hay with
  | nil =>
    intro h j
    rw [listFind] at h
    split at h
    · cases h
    · intro hcon
      rw [List.drop_nil] at hcon
      exact absurd (List.isPrefixOf_iff_prefix.mpr hcon) (by assumption)
  | cons c t ih =>
    intro h j
    rw [listFind] at h
    split at h
    · cases h
    · match j with
      | 0 =>
        intro hcon
        exact absurd (List.isPrefixOf_iff_prefix.mpr hcon) (by assumption)
      | Nat.succ j' =>
        exact ih (by simpa using h) j'

theorem listFind_le_length (pat : List Char) :
    ∀ hay i, listFind pat hay = some i → i ≤ hay.length := by
  intro hay
  induction hay with
  | nil =>
    intro i h
    rw [listFind] at h
    split at h
    · cases h; omega
    · cases h
  | cons c t ih =>
    intro i h
    rw [listFind] at h
    split at h
    · cases h; omega
    · rcases Option.map_eq_some'.mp h with ⟨i', hi', rfl⟩
      have := ih i' hi'
      simp only [List.length_cons]
      omega

/-- Python `pat in hay` holds exactly when `pat` occurs contiguously in `hay`. -/
theorem listContains_iff_infix (hay pat : List Char) :
    listContains hay pat = true ↔ pat <:+: hay := by
  constructor
  · intro h
    rcases Option.isSome_iff_exists.mp h with ⟨i, hi⟩
    rcases listFind_some pat hay i hi with ⟨hpre, _⟩
    exact (List.infix_iff_prefix_suffix).mpr ⟨hay.drop i, hpre, List.drop_suffix i hay⟩
  · intro h
    rcases (List.infix_iff_prefix_suffix).mp h with ⟨t, hpre, hsuf⟩
    rcases hsuf with ⟨s, rfl⟩
    by_contra hcon
    have hnone : listFind pat (s ++ t) = none := by
      cases hfind : listFind pat (s ++ t) with
      | none => rfl
      | some i => simp [listContains, hfind] at hcon
    have := listFind_none pat (s ++ t) hnone s.length
    rw [List.drop_left] at this
    exact this hpre

/-- Occurrence of a pattern inside a `drop`/`take` slice corresponds to an
occurrence of the pattern at an absolute position within the slice bounds. -/
theorem infix_slice_iff (l pat : List Char) (s e : Nat) (hse : s ≤ e) :
    pat <:+: ((l.drop s).take (e - s)) ↔
      ∃ k, s ≤ k ∧ k + pat.length ≤ e ∧ pat <+: l.drop k := by
  constructor
  · intro h
    rcases (List.infix_iff_prefix_suffix).mp h with ⟨t, hpre, hsuf⟩
    rcases hsuf with ⟨u, hu⟩
    have hdrop : t = ((l.drop s).take (e - s)).drop u.length := by
      rw [← hu, List.drop_left]
    rcases List.eq_nil_or_concat pat with hnil | _
    · subst hnil
      exact ⟨s, le_refl s, by simpa using hse, List.nil_prefix⟩
    · rw [hdrop, List.drop_take, List.drop_drop] at hpre
      rcases (List.prefix_take_iff).mp hpre with ⟨hpre', hlen⟩
      refine ⟨s + u.length, by omega, ?_, hpre'⟩
      have hposlen : 0 < pat.length := by
        rcases List.eq_nil_or_concat pat with h0 | ⟨ys, y, rfl⟩
        · simp_all
        · simp
      omega
  · rintro ⟨k, hsk, hke, hpre⟩
    apply (List.infix_iff_prefix_suffix).mpr
    refine ⟨((l.drop s).take (e - s)).drop (k - s), ?_, List.drop_suffix _ _⟩
    rw [List.drop_take, List.drop_drop]
    have h1 : s + (k - s) = k := by omega
    have h2 : e - s - (k - s) = e - k := by omega
    rw [h1, h2]
    exact (List.prefix_take_iff).mpr ⟨hpre, by omega⟩

/-- C6: `near` returns false when the anchor does not occur case-insensitively
in the text; otherwise it returns true exactly when the term occurs within
`window` characters before the start or after the end of the first anchor
occurrence — only that first occurrence is considered. -/
theorem near_first_occurrence_window (text a b : String) (w : Nat) :
    near text a b w = true ↔
      ∃ i, (lowerStr a).data <+: (lowerStr text).data.drop i ∧
        (∀ j < i, ¬ (lowerStr a).data <+: (lowerStr text).data.drop j) ∧
        ∃ k, i - w ≤ k ∧
          k + (lowerStr b).data.length ≤ min (lowerStr text).data.length (i + a.length + w) ∧
          (lowerStr b).data <+: (lowerStr text).data.drop k := by
  cases hfind : listFind (lowerStr a).data (lowerStr text).data with
  | none =>
    simp only [near, hfind]
    constructor
    · intro h
      cases h
    · rintro ⟨i, hpre, -, -⟩
      exact absurd hpre (listFind_none _ _ hfind i)
  | some aIdx =>
    rcases listFind_some _ _ _ hfind with ⟨hpre, hmin⟩
    have hlen := listFind_le_length _ _ _ hfind
    simp only [near, hfind]
    rw [ listContains_iff_infix,
      infix_slice_iff (lowerStr text).data (lowerStr b).data (aIdx - w)
        (min (lowerStr text).data.length (aIdx + a.length + w)) (by omega)]
    constructor
    · rintro ⟨k, hk1, hk2, hk3⟩
      exact ⟨aIdx, hpre, hmin, k, hk1, hk2, hk3⟩
    · rintro ⟨i, hpre', hmin', k, hk1, hk2, hk3⟩
      have hieq : i = aIdx := by
        rcases Nat.lt_trichotomy i aIdx with h | h | h
        · exact absurd hpre' (hmin i h)
        · exact h
        · exact absurd hpre (hmin' aIdx h)
      subst hieq
      exact ⟨k, hk1, hk2, hk3⟩

/-- Closed instance of `near_first_occurrence_window` at a concrete text,
anchor and term. -/
theorem near_first_occurrence_window_witness :
    ∃ i, (lowerStr "x-ray").data <+: (lowerStr "a cxr x-ray was done").data.drop i ∧
      (∀ j < i, ¬ (lowerStr "x-ray").data <+: (lowerStr "a cxr x-ray was done").data.drop j) ∧
      ∃ k, i - 40 ≤ k ∧
        k + (lowerStr "done").data.length ≤
          min (lowerStr "a cxr x-ray was done").data.length (i + "x-ray".length + 40) ∧
        (lowerStr "done").data <+: (lowerStr "a cxr x-ray was done").data.drop k :=
  (near_first_occurrence_window "a cxr x-ray was done" "x-ray" "done" 40).mp (by decide)

/-! ### Helper lemmas on the rule lists and the assembler loops -/

theorem mem_if_singleton {α : Type} (a b : α) (c : Bool) :
    (a ∈ if c then [b] else []) ↔ c = true ∧ a = b := by
  cases c <;> simp

theorem filterMap_patient_of_conditions (l : List FhirCondition) :
    (l.map Resource.condition).filterMap
      (fun r => match r with | .patient p => some p | _ => none) = [] := by
  induction l with
  | nil => rfl
  | cons c t ih => simp [ih]

theorem filterMap_encounter_of_conditions (l : List FhirCondition) :
    (l.map Resource.condition).filterMap
      (fun r => match r with | .encounter e => some e | _ => none) = [] := by
  induction l with
  | nil => rfl
  | cons c t ih => simp [ih]

theorem filterMap_claim_of_conditions (l : List FhirCondition) :
    (l.map Resource.condition).filterMap
      (fun r => match r with | .claim c => some c | _ => none) = [] := by
  induction l with
  | nil => rfl
  | cons c t ih => simp [ih]

theorem filterMap_condition_of_conditions (l : List FhirCondition) :
    (l.map Resource.condition).filterMap
      (fun r => match r with | .condition c => some c | _ => none) = l := by
  induction l with
  | nil => rfl
  | cons c t ih => simpa using ih

theorem build_conditions_fst_length (pat_id enc_id : String) (cf : Nat → String) :
    ∀ idx l, ((build_conditions pat_id enc_id cf idx l).1).length = l.length := by
  intro idx l
  induction l generalizing idx with
  | nil => rfl
  | cons d t ih => simp [build_conditions, ih]

theorem build_conditions_snd_length (pat_id enc_id : String) (cf : Nat → String) :
    ∀ idx l, ((build_conditions pat_id enc_id cf idx l).2).length = l.length := by
  intro idx l
  induction l generalizing idx with
  | nil => rfl
  | cons d t ih => simp [build_conditions, ih]

theorem build_conditions_fst_ids (pat_id enc_id : String) (cf : Nat → String) :
    ∀ idx l, ((build_conditions pat_id enc_id cf idx l).1).map (·.id)
      = (List.range' idx l.length).map (fun i => "cond-" ++ cf i) := by
  intro idx l
  induction l generalizing idx with
  | nil => rfl
  | cons d t ih => simp [build_conditions, List.range'_succ, ih]

theorem build_conditions_snd_refs (pat_id enc_id : String) (cf : Nat → String) :
    ∀ idx l, ((build_conditions pat_id enc_id cf idx l).2).map (·.diagnosisReference)
      = (List.range' idx l.length).map (fun i => fhir_ref "Condition" ("cond-" ++ cf i)) := by
  intro idx l
  induction l generalizing idx with
  | nil => rfl
  | cons d t ih => simp [build_conditions, List.range'_succ, ih]

theorem build_conditions_fst_links (pat_id enc_id : String) (cf : Nat → String) :
    ∀ idx l c, c ∈ (build_conditions pat_id enc_id cf idx l).1 →
      c.subject = fhir_ref "Patient" pat_id ∧ c.encounter = fhir_ref "Encounter" enc_id := by
  intro idx l
  induction l generalizing idx with
  | nil => intro c h; cases h
  | cons d t ih =>
    intro c h
    rcases (by simpa [build_conditions] using h : c = _ ∨ c ∈ _) with rfl | h'
    · exact ⟨rfl, rfl⟩
    · exact ih (idx + 1) c h'

theorem build_items_length (enc_id : String) (date : Option String) :
    ∀ k l, (build_items enc_id date k l).length = l.length := by
  intro k l
  induction l generalizing k with
  | nil => rfl
  | cons p t ih => simp [build_items, ih]

theorem build_items_seq (enc_id : String) (date : Option String) :
    ∀ k l, (build_items enc_id date k l).map (·.sequence)
      = List.range' (k + 1) l.length := by
  intro k l
  induction l generalizing k with
  | nil => rfl
  | cons p t ih => simp [build_items, mk_item, List.range'_succ, ih]

theorem build_items_codes (enc_id : String) (date : Option String) :
    ∀ k l, (build_items enc_id date k l).map (fun it => it.productOrService.coding.map (·.code))
      = l.map (fun p => [p.code]) := by
  intro k l
  induction l generalizing k with
  | nil => rfl
  | cons p t ih => simp [build_items, mk_item, ih]

theorem build_items_encounters (enc_id : String) (date : Option String) :
    ∀ k l it, it ∈ build_items enc_id date k l →
      it.encounter = [fhir_ref "Encounter" enc_id] := by
  intro k l
  induction l generalizing k with
  | nil => intro it h; cases h
  | cons p t ih =>
    intro it h
    rcases (by simpa [build_items] using h : it = _ ∨ it ∈ _) with rfl | h'
    · rfl
    · exact ih (k + 1) it h'

theorem build_claim_procedures_seq (date : Option String) :
    ∀ i l, (build_claim_procedures date i l).map (·.sequence) = List.range' i l.length := by
  intro i l
  induction l generalizing i with
  | nil => rfl
  | cons p t ih => simp [build_claim_procedures, List.range'_succ, ih]

theorem build_claim_procedures_codes (date : Option String) :
    ∀ i l, (build_claim_procedures date i l).map (fun p => p.procedureCodeableConcept.map (·.code))
      = l.map (fun p => [p.code]) := by
  intro i l
  induction l generalizing i with
  | nil => rfl
  | cons p t ih => simp [build_claim_procedures, ih]

/-! ### Claim theorems -/

/-- C8: on every envelope `tiny_rules` emits the fixed visit code 99213 with
assumed patient status "established" and confidence 0.58; on a note matching
no diagnosis rule the diagnosis list is empty while the visit code is still
emitted. -/
theorem em_default_unconditional (env : Envelope) :
    (tiny_rules env).cpt_em.code = "99213" ∧
    (tiny_rules env).cpt_em.assumed_patient_status = "established" ∧
    (tiny_rules env).cpt_em.confidence = 0.58 ∧
    (tiny_rules ⟨none, none, some ⟨some "Patient doing well, no complaints."⟩,
      none, none⟩).icd10 = [] := by
  exact ⟨rfl, rfl, rfl, rfl⟩

/-- C4: the principal diagnosis J20.9 is appended iff the lower-cased note
contains "cough" and ("wheez" or "shortness of breath") and ("fever" or
"azithromycin"); each of the four secondary entries is appended iff its bare
stem is present, independently of the principal rule. -/
theorem diagnosis_rules_membership (note : String) :
    (dx_acute_bronchitis ∈ (tiny_rules ⟨none, none, some ⟨some note⟩, none, none⟩).icd10 ↔
      (present (lowerStr note) ["cough"] &&
        (present (lowerStr note) ["wheez"] ||
          present (lowerStr note) ["shortness of breath"]) &&
        (present (lowerStr note) ["fever"] ||
          present (lowerStr note) ["azithromycin"])) = true) ∧
    (dx_wheezing ∈ (tiny_rules ⟨none, none, some ⟨some note⟩, none, none⟩).icd10 ↔
      strContains (lowerStr note) "wheez" = true) ∧
    (dx_shortness_of_breath ∈ (tiny_rules ⟨none, none, some ⟨some note⟩, none, none⟩).icd10 ↔
      strContains (lowerStr note) "shortness of breath" = true) ∧
    (dx_fever ∈ (tiny_rules ⟨none, none, some ⟨some note⟩, none, none⟩).icd10 ↔
      strContains (lowerStr note) "fever" = true) ∧
    (dx_cough ∈ (tiny_rules ⟨none, none, some ⟨some note⟩, none, none⟩).icd10 ↔
      strContains (lowerStr note) "cough" = true) := by
  simp only [tiny_rules, List.mem_append, mem_if_singleton]
  refine ⟨?_, ?_, ?_, ?_, ?_⟩ <;>
    simp [dx_acute_bronchitis, dx_wheezing, dx_shortness_of_breath, dx_fever, dx_cough,
      DxEntry.mk.injEq]

theorem icd10_sublist_master (c1 c2 c3 c4 c5 : Bool) :
    List.Sublist
      ((if c1 then [dx_acute_bronchitis] else []) ++ (if c2 then [dx_wheezing] else [])
        ++ (if c3 then [dx_shortness_of_breath] else []) ++ (if c4 then [dx_fever] else [])
        ++ (if c5 then [dx_cough] else []))
      [dx_acute_bronchitis, dx_wheezing, dx_shortness_of_breath, dx_fever, dx_cough] := by
  have hone : ∀ (c : Bool) (x : DxEntry), List.Sublist (if c then [x] else []) [x] := by
    intro c x
    cases c
    · exact List.nil_sublist [x]
    · exact List.Sublist.refl [x]
  exact ((((hone c1 dx_acute_bronchitis).append (hone c2 dx_wheezing)).append
    (hone c3 dx_shortness_of_breath)).append (hone c4 dx_fever)).append (hone c5 dx_cough)

/-- C10: the diagnosis list is always a sublist of the fixed rule-order list
J20.9, R06.2, R06.02, R50.9, R05.9 (each entry at most once), its ranks are
strictly increasing, its confidences strictly decreasing, and whenever the
principal bronchitis entry is present the cough entry is present as well. -/
theorem diagnoses_ordering_invariant (env : Envelope) :
    ((tiny_rules env).icd10).Sublist
        [dx_acute_bronchitis, dx_wheezing, dx_shortness_of_breath, dx_fever, dx_cough] ∧
    ((tiny_rules env).icd10).Pairwise (fun a b => a.rank < b.rank) ∧
    ((tiny_rules env).icd10).Pairwise (fun a b => b.confidence < a.confidence) ∧
    (dx_acute_bronchitis ∈ (tiny_rules env).icd10 → dx_cough ∈ (tiny_rules env).icd10) := by
  have hsub : ((tiny_rules env).icd10).Sublist
      [dx_acute_bronchitis, dx_wheezing, dx_shortness_of_breath, dx_fever, dx_cough] := by
    simp only [tiny_rules]
    exact icd10_sublist_master _ _ _ _ _
  have hrank : ([dx_acute_bronchitis, dx_wheezing, dx_shortness_of_breath, dx_fever,
      dx_cough] : List DxEntry).Pairwise (fun a b => a.rank < b.rank) := by
    norm_num [List.pairwise_cons, dx_acute_bronchitis, dx_wheezing,
      dx_shortness_of_breath, dx_fever, dx_cough]
  have hconf : ([dx_acute_bronchitis, dx_wheezing, dx_shortness_of_breath, dx_fever,
      dx_cough] : List DxEntry).Pairwise (fun a b => b.confidence < a.confidence) := by
    norm_num [List.pairwise_cons, dx_acute_bronchitis, dx_wheezing,
      dx_shortness_of_breath, dx_fever, dx_cough]
  refine ⟨hsub, List.Pairwise.sublist hsub hrank, List.Pairwise.sublist hsub hconf, ?_⟩
  intro hmem
  simp only [tiny_rules, List.mem_append, mem_if_singleton] at hmem
  have hcough : strContains (lowerStr (match env.clinical_note with
      | some cn => cn.text_preview.getD ""
      | none => "")) "cough" = true := by
    rcases hmem with (((hc | ⟨-, habs⟩) | ⟨-, habs⟩) | ⟨-, habs⟩) | ⟨-, habs⟩
    · have h1 : present (lowerStr (match env.clinical_note with
          | some cn => cn.text_preview.getD ""
          | none => "")) ["cough"] = true := by
        simp only [Bool.and_eq_true] at hc
        exact hc.1.1.1
      simp only [present, List.all_cons, List.all_nil, Bool.and_true] at h1
      rw [lowerStr_idem] at h1
      exact h1
    all_goals
      exact absurd habs (by simp [dx_acute_bronchitis, dx_wheezing,
        dx_shortness_of_breath, dx_fever, dx_cough, DxEntry.mk.injEq])
  have hlast : dx_cough ∈ (if strContains (lowerStr (match env.clinical_note with
      | some cn => cn.text_preview.getD ""
      | none => "")) "cough" then [dx_cough] else []) :=
    (mem_if_singleton dx_cough dx_cough _).mpr ⟨hcough, rfl⟩
  simp only [tiny_rules, List.mem_append]
  tauto

/-- Closed instance of `diagnoses_ordering_invariant` discharging its
membership hypothesis on a concrete note. -/
theorem diagnoses_ordering_invariant_witness :
    dx_cough ∈ (tiny_rules ⟨none, none,
      some ⟨some "cough with wheezing and fever"⟩, none, none⟩).icd10 := by
  have h : (tiny_rules ⟨none, none,
      some ⟨some "cough with wheezing and fever"⟩, none, none⟩).icd10
      = [dx_acute_bronchitis, dx_wheezing, dx_fever, dx_cough] := rfl
  exact (diagnoses_ordering_invariant _).2.2.2 (by rw [h]; simp)

theorem neb_fst_filter_imaging (n : String) :
    ((detect_nebulizer_and_drug n).1.toList.filter
      (fun p => p.code == "71045" || p.code == "71046")) = [] := by
  simp only [detect_nebulizer_and_drug]
  split
  · rfl
  · rfl

theorem inj_fst_filter_imaging (n : String) :
    ((detect_injection_and_drug n).1.toList.filter
      (fun p => p.code == "71045" || p.code == "71046")) = [] := by
  simp only [detect_injection_and_drug]
  split
  · split
    · rfl
    · split
      · rfl
      · rfl
  · rfl

theorem cxr_filter_imaging (n : String) :
    ((detect_performed_cxr n).toList.filter
        (fun p => p.code == "71045" || p.code == "71046"))
      = (if (strContains (lowerStr n) "x-ray" || strContains (lowerStr n) "xray" ||
              strContains (lowerStr n) "cxr")
            && PERFORMED_HINTS.any (fun h =>
                near (lowerStr n) "x-ray" h 40 || near (lowerStr n) "xray" h 40 ||
                near (lowerStr n) "cxr" h 40) then
          [if strContains (lowerStr n) "two views" || strContains (lowerStr n) "2 views" ||
              strContains (lowerStr n) "pa and lateral" then
            cpt_chest_xray_two_views
          else cpt_chest_xray_single_view]
        else []) := by
  simp only [detect_performed_cxr]
  by_cases h1 : (strContains (lowerStr n) "x-ray" || strContains (lowerStr n) "xray" ||
      strContains (lowerStr n) "cxr") = true
  · rw [if_pos h1]
    by_cases h2 : (PERFORMED_HINTS.any fun h =>
        near (lowerStr n) "x-ray" h 40 || near (lowerStr n) "xray" h 40 ||
        near (lowerStr n) "cxr" h 40) = true
    · rw [if_pos h2]
      by_cases h3 : (strContains (lowerStr n) "two views" ||
          strContains (lowerStr n) "2 views" ||
          strContains (lowerStr n) "pa and lateral") = true
      · rw [if_pos h3, if_pos (by rw [h1, h2]; rfl), if_pos h3]
        rfl
      · rw [if_neg h3, if_pos (by rw [h1, h2]; rfl), if_neg h3]
        rfl
    · simp only [Bool.not_eq_true] at h2
      rw [if_neg (by simp [h2]), if_neg (by simp [h2])]
      rfl
  · simp only [Bool.not_eq_true] at h1
    rw [if_neg (by simp [h1]), if_neg (by simp [h1])]
    rfl

/-- C5: among the detected procedures there is at most one imaging code; the
imaging line is present iff an imaging anchor occurs and a performed-hint lies
within 40 characters of the first anchor occurrence, the two-view code 71046
being selected iff a two-view phrase also occurs; the spec's two-view scenario
note yields exactly the 71046 entry. -/
theorem imaging_rule_spec (note : String) :
    ((tiny_rules ⟨none, none, some ⟨some note⟩, none, none⟩).procedures.filter
        (fun p => p.code == "71045" || p.code == "71046"))
      = (if (strContains (lowerStr note) "x-ray" || strContains (lowerStr note) "xray" ||
              strContains (lowerStr note) "cxr")
            && PERFORMED_HINTS.any (fun h =>
                near (lowerStr note) "x-ray" h 40 || near (lowerStr note) "xray" h 40 ||
                near (lowerStr note) "cxr" h 40) then
          [if strContains (lowerStr note) "two views" ||
              strContains (lowerStr note) "2 views" ||
              strContains (lowerStr note) "pa and lateral" then
            cpt_chest_xray_two_views
          else cpt_chest_xray_single_view]
        else []) ∧
    ((tiny_rules ⟨none, none, some ⟨some note⟩, none, none⟩).procedures.countP
        (fun p => p.code == "71045" || p.code == "71046")) ≤ 1 ∧
    (tiny_rules ⟨none, none, some ⟨some "Chest X-ray performed, two views, clear."⟩,
        none, none⟩).procedures = [cpt_chest_xray_two_views] := by
  have hfilter : ((tiny_rules ⟨none, none, some ⟨some note⟩, none, none⟩).procedures.filter
      (fun p => p.code == "71045" || p.code == "71046"))
      = (if (strContains (lowerStr note) "x-ray" || strContains (lowerStr note) "xray" ||
              strContains (lowerStr note) "cxr")
            && PERFORMED_HINTS.any (fun h =>
                near (lowerStr note) "x-ray" h 40 || near (lowerStr note) "xray" h 40 ||
                near (lowerStr note) "cxr" h 40) then
          [if strContains (lowerStr note) "two views" ||
              strContains (lowerStr note) "2 views" ||
              strContains (lowerStr note) "pa and lateral" then
            cpt_chest_xray_two_views
          else cpt_chest_xray_single_view]
        else []) := by
    simp only [tiny_rules]
    rw [List.filter_append, List.filter_append,
      neb_fst_filter_imaging, inj_fst_filter_imaging, cxr_filter_imaging]
    simp
  refine ⟨hfilter, ?_, ?_⟩
  · rw [List.countP_eq_length_filter, hfilter]
    split
    · simp
    · simp
  · rfl

theorem cxr_filter_injcode (n : String) :
    ((detect_performed_cxr n).toList.filter (fun p => p.code == "96372")) = [] := by
  simp only [detect_performed_cxr]
  split
  · split
    · split
      · rfl
      · rfl
    · rfl
  · rfl

theorem neb_fst_filter_injcode (n : String) :
    ((detect_nebulizer_and_drug n).1.toList.filter (fun p => p.code == "96372")) = [] := by
  simp only [detect_nebulizer_and_drug]
  split
  · rfl
  · rfl

theorem inj_fst_filter_injcode (n : String) :
    ((detect_injection_and_drug n).1.toList.filter (fun p => p.code == "96372"))
      = (if (strContains (lowerStr n) "intramuscular" ||
              strContains (lowerStr n) "im injection" ||
              strContains (lowerStr n) "injection given" ||
              strContains (lowerStr n) "shot given")
            && PERFORMED_HINTS.any (fun h => strContains (lowerStr n) h) then
          [cpt_therapeutic_injection] else []) := by
  simp only [detect_injection_and_drug]
  by_cases hc : ((strContains (lowerStr n) "intramuscular" ||
      strContains (lowerStr n) "im injection" ||
      strContains (lowerStr n) "injection given" ||
      strContains (lowerStr n) "shot given")
      && PERFORMED_HINTS.any (fun h => strContains (lowerStr n) h)) = true
  · rw [if_pos hc, if_pos hc]
    split
    · rfl
    · split
      · rfl
      · rfl
  · rw [if_neg hc, if_neg hc]
    rfl

theorem neb_snd_filter_drug (n : String) :
    ((detect_nebulizer_and_drug n).2.toList.filter
      (fun p => p.code == "J0696" || p.code == "J1100")) = [] := by
  simp only [detect_nebulizer_and_drug]
  split
  · split
    · rfl
    · rfl
  · rfl

theorem inj_snd_filter_drug (n : String) :
    ((detect_injection_and_drug n).2.toList.filter
        (fun p => p.code == "J0696" || p.code == "J1100"))
      = (if (strContains (lowerStr n) "intramuscular" ||
              strContains (lowerStr n) "im injection" ||
              strContains (lowerStr n) "injection given" ||
              strContains (lowerStr n) "shot given")
            && PERFORMED_HINTS.any (fun h => strContains (lowerStr n) h) then
          (if strContains (lowerStr n) "ceftriaxone" then [hcpcs_ceftriaxone_inj]
           else if strContains (lowerStr n) "dexamethasone" then [hcpcs_dexamethasone_inj]
           else [])
        else []) := by
  simp only [detect_injection_and_drug]
  by_cases hc : ((strContains (lowerStr n) "intramuscular" ||
      strContains (lowerStr n) "im injection" ||
      strContains (lowerStr n) "injection given" ||
      strContains (lowerStr n) "shot given")
      && PERFORMED_HINTS.any (fun h => strContains (lowerStr n) h)) = true
  · rw [if_pos hc, if_pos hc]
    by_cases h2 : strContains (lowerStr n) "ceftriaxone" = true
    · rw [if_pos h2, if_pos h2]
      rfl
    · rw [if_neg h2, if_neg h2]
      by_cases h3 : strContains (lowerStr n) "dexamethasone" = true
      · rw [if_pos h3, if_pos h3]
        rfl
      · rw [if_neg h3, if_neg h3]
        rfl
  · rw [if_neg hc, if_neg hc]
    rfl

/-- C7: when an injection anchor occurs and a performed-hint occurs anywhere,
the therapeutic-injection code 96372 is emitted (and only then); the rule
emits at most one supply entry, J0696 when "ceftriaxone" is present (even if
"dexamethasone" also is), else J1100 when "dexamethasone" is present, else
none. -/
theorem injection_rule_spec (note : String) :
    ((tiny_rules ⟨none, none, some ⟨some note⟩, none, none⟩).procedures.filter
        (fun p => p.code == "96372"))
      = (if (strContains (lowerStr note) "intramuscular" ||
              strContains (lowerStr note) "im injection" ||
              strContains (lowerStr note) "injection given" ||
              strContains (lowerStr note) "shot given")
            && PERFORMED_HINTS.any (fun h => strContains (lowerStr note) h) then
          [cpt_therapeutic_injection] else []) ∧
    ((tiny_rules ⟨none, none, some ⟨some note⟩, none, none⟩).hcpcs.filter
        (fun p => p.code == "J0696" || p.code == "J1100"))
      = (if (strContains (lowerStr note) "intramuscular" ||
              strContains (lowerStr note) "im injection" ||
              strContains (lowerStr note) "injection given" ||
              strContains (lowerStr note) "shot given")
            && PERFORMED_HINTS.any (fun h => strContains (lowerStr note) h) then
          (if strContains (lowerStr note) "ceftriaxone" then [hcpcs_ceftriaxone_inj]
           else if strContains (lowerStr note) "dexamethasone" then
             [hcpcs_dexamethasone_inj]
           else [])
        else []) := by
  constructor
  · simp only [tiny_rules]
    rw [List.filter_append, List.filter_append,
      cxr_filter_injcode, neb_fst_filter_injcode, inj_fst_filter_injcode]
    simp
  · simp only [tiny_rules]
    rw [List.filter_append, neb_snd_filter_drug, inj_snd_filter_drug]
    simp

/-- C2: the assembled Claim.item list is the visit line, then one line per
detected procedure in order, then one line per detected supply in order; its
sequences are exactly 1, 2, ..., n for n = 1 + len(procedures) + len(supplies),
and Claim.procedure independently carries one entry per procedure with its own
contiguous 1-based sequences. -/
theorem claim_item_sequencing (env : Envelope) (ps es cs : String) (cf : Nat → String)
    (cr bs ts : String) :
    ((run_coding_agent env ps es cs cf cr bs ts).theClaim.map fun c => c.item.length)
      = some (1 + (tiny_rules env).procedures.length + (tiny_rules env).hcpcs.length) ∧
    ((run_coding_agent env ps es cs cf cr bs ts).theClaim.map fun c =>
        c.item.map (·.sequence))
      = some (List.range' 1
          (1 + (tiny_rules env).procedures.length + (tiny_rules env).hcpcs.length)) ∧
    ((run_coding_agent env ps es cs cf cr bs ts).theClaim.map fun c =>
        c.item.map (fun it => it.productOrService.coding.map (·.code)))
      = some ([["99213"]] ++ (tiny_rules env).procedures.map (fun p => [p.code])
          ++ (tiny_rules env).hcpcs.map (fun p => [p.code])) ∧
    ((run_coding_agent env ps es cs cf cr bs ts).theClaim.map fun c =>
        c.procedure.map (·.sequence))
      = some (List.range' 1 (tiny_rules env).procedures.length) ∧
    ((run_coding_agent env ps es cs cf cr bs ts).theClaim.map fun c =>
        c.procedure.map (fun p => p.procedureCodeableConcept.map (·.code)))
      = some ((tiny_rules env).procedures.map (fun p => [p.code])) := by
  have hcpt : (tiny_rules env).cpt_em = cpt_em_default := rfl
  refine ⟨?_, ?_, ?_, ?_, ?_⟩
  · simp [run_coding_agent, build_fhir_bundle, Bundle.theClaim, Bundle.fhirClaims,
      List.filterMap_append, List.filterMap_cons, filterMap_claim_of_conditions,
      hcpt, cpt_em_default, mk_item, build_items_length]
    omega
  · simp [run_coding_agent, build_fhir_bundle, Bundle.theClaim, Bundle.fhirClaims,
      List.filterMap_append, List.filterMap_cons, filterMap_claim_of_conditions,
      hcpt, cpt_em_default, mk_item, build_items_seq]
    have hp : (1 : Nat) + (tiny_rules env).procedures.length + 1
        = 2 + (tiny_rules env).procedures.length := by omega
    have hq : (1 : Nat) + (tiny_rules env).procedures.length + (tiny_rules env).hcpcs.length
        = (tiny_rules env).hcpcs.length + (tiny_rules env).procedures.length + 1 := by omega
    rw [hp, List.range'_append_1, hq, List.range'_succ]
  · simp [run_coding_agent, build_fhir_bundle, Bundle.theClaim, Bundle.fhirClaims,
      List.filterMap_append, List.filterMap_cons, filterMap_claim_of_conditions,
      hcpt, cpt_em_default, mk_item, build_items_codes]
  · simp [run_coding_agent, build_fhir_bundle, Bundle.theClaim, Bundle.fhirClaims,
      List.filterMap_append, List.filterMap_cons, filterMap_claim_of_conditions,
      hcpt, cpt_em_default, build_claim_procedures_seq]
  · simp [run_coding_agent, build_fhir_bundle, Bundle.theClaim, Bundle.fhirClaims,
      List.filterMap_append, List.filterMap_cons, filterMap_claim_of_conditions,
      hcpt, cpt_em_default, build_claim_procedures_codes]

/-- C9 counterexample: a lower-case sex value "m" is upper-cased by the code
and mapped to "male", where the claim as stated demands "unknown" for any
value other than "M" or "F". -/
theorem sex_lowercase_m_maps_to_male :
    ((run_coding_agent ⟨some ⟨none, none, none, some "m", none, none⟩, none, none, none, none⟩
        "a" "b" "c" (fun _ => "d") "t" "u" "v").thePatient.map (·.gender)) = some "male" ∧
    ("male" : String) ≠ "unknown" := by
  exact ⟨rfl, by decide⟩

/-- C9 (amended): the assembled Patient gender is "male" when the upper-cased
sex field is "M", "female" when it is "F", and "unknown" for anything else,
including an absent sex field. -/
theorem gender_mapping_uppercases_sex (env : Envelope) (icd : List DxEntry) (cpt : CptEm)
    (procs hs : List CodeEntry) (ps es cs : String) (cf : Nat → String) (cr bs ts : String) :
    ((build_fhir_bundle env icd cpt procs hs ps es cs cf cr bs ts).thePatient.map (·.gender))
      = some (if upperStr ((env.patient.getD ⟨none, none, none, none, none, none⟩).sex.getD "")
            = "M" then "male"
          else if upperStr ((env.patient.getD ⟨none, none, none, none, none, none⟩).sex.getD "")
            = "F" then "female"
          else "unknown") := by
  simp [build_fhir_bundle, Bundle.thePatient, Bundle.patients, List.filterMap_append,
    List.filterMap_cons, sex_to_gender]

/-- C3 counterexample: on the fully-empty envelope the Encounter period start
in the output is null (`none`), not an empty string, because the encounter
date is read without a default. -/
theorem empty_envelope_period_start_is_null :
    ((run_coding_agent ⟨none, none, none, none, none⟩
        "a" "b" "c" (fun _ => "d") "t" "u" "v").theEncounter.map (·.period_start))
      = some none ∧ (none : Option String) ≠ some "" := by
  exact ⟨rfl, by decide⟩

theorem build_items_servicedDate_none (enc_id : String) :
    ∀ k l, ((build_items enc_id none k l).all (fun it => it.servicedDate == none)) = true := by
  intro k l
  induction l generalizing k with
  | nil => rfl
  | cons p t ih => simp [build_items, mk_item, ih]

theorem build_claim_procedures_date_none :
    ∀ i l, ((build_claim_procedures none i l).all (fun p => p.date == none)) = true := by
  intro i l
  induction l generalizing i with
  | nil => rfl
  | cons p t ih => simp [build_claim_procedures, ih]

theorem em_items_servicedDate_none (enc_id : String) (cpt : CptEm) :
    ((if cpt.code = "" then []
        else [mk_item enc_id none 1 cpt.system cpt.code cpt.display]).all
      (fun it => it.servicedDate == none)) = true := by
  split
  · rfl
  · rfl

theorem sex_to_gender_empty : sex_to_gender "" = "unknown" := rfl

/-- C3 (amended): detection and assembly are total on every envelope shape; on
any envelope, every access to an absent field — whether its parent object is
absent or the sub-field is absent inside a present parent — falls back to an
empty string or an empty collection in the output, except the encounter-date
accesses, which yield null, and the claim_id access, which falls back to the
generated claim resource id; on the fully-empty envelope the whole output is
the default document. -/
theorem assemble_defaults_on_missing_fields (env : Envelope) (icd : List DxEntry)
    (cpt : CptEm) (procs hs : List CodeEntry) (ps es cs : String) (cf : Nat → String)
    (cr bs ts : String) :
    ((env.patient.getD ⟨none, none, none, none, none, none⟩).mrn = none →
      ((build_fhir_bundle env icd cpt procs hs ps es cs cf cr bs ts).thePatient.map
        (·.mrn)) = some "") ∧
    ((env.patient.getD ⟨none, none, none, none, none, none⟩).last_name = none →
      ((build_fhir_bundle env icd cpt procs hs ps es cs cf cr bs ts).thePatient.map
        (·.family)) = some "") ∧
    ((env.patient.getD ⟨none, none, none, none, none, none⟩).first_name = none →
      ((build_fhir_bundle env icd cpt procs hs ps es cs cf cr bs ts).thePatient.map
        (·.given)) = some [""]) ∧
    ((env.patient.getD ⟨none, none, none, none, none, none⟩).sex = none →
      ((build_fhir_bundle env icd cpt procs hs ps es cs cf cr bs ts).thePatient.map
        (·.gender)) = some "unknown") ∧
    ((env.patient.getD ⟨none, none, none, none, none, none⟩).dob = none →
      ((build_fhir_bundle env icd cpt procs hs ps es cs cf cr bs ts).thePatient.map
        (·.birthDate)) = some "") ∧
    ((env.patient.getD ⟨none, none, none, none, none, none⟩).payer_name = none →
      ((build_fhir_bundle env icd cpt procs hs ps es cs cf cr bs ts).theClaim.map
        (·.insurer_display)) = some "") ∧
    ((env.encounter.getD ⟨none, none, none⟩).location_npi = none →
      ((build_fhir_bundle env icd cpt procs hs ps es cs cf cr bs ts).theEncounter.map
        (·.serviceProvider_npi)) = some "") ∧
    ((env.encounter.getD ⟨none, none, none⟩).provider_npi = none →
      ((build_fhir_bundle env icd cpt procs hs ps es cs cf cr bs ts).theClaim.map
        (·.enterer_npi)) = some "") ∧
    ((env.encounter.getD ⟨none, none, none⟩).date = none →
      ((build_fhir_bundle env icd cpt procs hs ps es cs cf cr bs ts).theEncounter.map
        (·.period_start)) = some none ∧
      ((build_fhir_bundle env icd cpt procs hs ps es cs cf cr bs ts).theEncounter.map
        (·.period_end)) = some none ∧
      ((build_fhir_bundle env icd cpt procs hs ps es cs cf cr bs ts).theClaim.map
        (fun c => c.item.all (fun it => it.servicedDate == none))) = some true ∧
      ((build_fhir_bundle env icd cpt procs hs ps es cs cf cr bs ts).theClaim.map
        (fun c => c.procedure.all (fun p => p.date == none))) = some true) ∧
    ((env.claim_id = none ∨ env.claim_id = some "") →
      ((build_fhir_bundle env icd cpt procs hs ps es cs cf cr bs ts).theClaim.map
        (·.ext_claim_id_input)) = some ("clm-" ++ cs)) ∧
    ((env.meta.getD ⟨none⟩).source = none →
      ((build_fhir_bundle env icd cpt procs hs ps es cs cf cr bs ts).theClaim.map
        (·.ext_source)) = some "") ∧
    ((env.clinical_note.getD ⟨none⟩).text_preview = none →
      tiny_rules env = ⟨[], cpt_em_default, [], []⟩) ∧
    run_coding_agent ⟨none, none, none, none, none⟩ ps es cs cf cr bs ts =
      { bundle_type := "collection"
        id := "bundle-" ++ bs
        timestamp := ts
        entry := [
          Resource.patient
            { id := "pat-" ++ ps, mrn := "", family := "", given := [""],
              gender := "unknown", birthDate := "" },
          Resource.encounter
            { id := "enc-" ++ es, status := "finished", class_code := "AMB",
              subject := fhir_ref "Patient" ("pat-" ++ ps),
              period_start := none, period_end := none, serviceProvider_npi := "" },
          Resource.claim
            { id := "clm-" ++ cs, status := "active", type_code := "professional",
              use := "claim", patient := fhir_ref "Patient" ("pat-" ++ ps),
              created := cr, enterer_npi := "", insurer_display := "",
              priority_code := "normal", diagnosis := [], procedure := [],
              item := [⟨1, ⟨[⟨"http://www.ama-assn.org/go/cpt", "99213",
                  "Office or other outpatient visit for an established patient, low MDM"⟩],
                  "Office or other outpatient visit for an established patient, low MDM"⟩,
                none, [fhir_ref "Encounter" ("enc-" ++ es)]⟩],
              supportingInfo := [⟨1, "info", "established", 0.58⟩],
              ext_claim_id_input := "clm-" ++ cs, ext_source := "" }] } := by
  refine ⟨?_, ?_, ?_, ?_, ?_, ?_, ?_, ?_, ?_, ?_, ?_, ?_, ?_⟩
  · intro h
    simp [build_fhir_bundle, Bundle.thePatient, Bundle.patients,
      List.filterMap_append, List.filterMap_cons, h]
  · intro h
    simp [build_fhir_bundle, Bundle.thePatient, Bundle.patients,
      List.filterMap_append, List.filterMap_cons, h]
  · intro h
    simp [build_fhir_bundle, Bundle.thePatient, Bundle.patients,
      List.filterMap_append, List.filterMap_cons, h]
  · intro h
    simp [build_fhir_bundle, Bundle.thePatient, Bundle.patients,
      List.filterMap_append, List.filterMap_cons, h, sex_to_gender_empty]
  · intro h
    simp [build_fhir_bundle, Bundle.thePatient, Bundle.patients,
      List.filterMap_append, List.filterMap_cons, h]
  · intro h
    simp [build_fhir_bundle, Bundle.theClaim, Bundle.fhirClaims,
      List.filterMap_append, List.filterMap_cons, filterMap_claim_of_conditions, h]
  · intro h
    simp [build_fhir_bundle, Bundle.theEncounter, Bundle.encounters,
      List.filterMap_append, List.filterMap_cons, h]
  · intro h
    simp [build_fhir_bundle, Bundle.theClaim, Bundle.fhirClaims,
      List.filterMap_append, List.filterMap_cons, filterMap_claim_of_conditions, h]
  · intro h
    refine ⟨?_, ?_, ?_, ?_⟩
    · simp [build_fhir_bundle, Bundle.theEncounter, Bundle.encounters,
        List.filterMap_append, List.filterMap_cons, h]
    · simp [build_fhir_bundle, Bundle.theEncounter, Bundle.encounters,
        List.filterMap_append, List.filterMap_cons, h]
    · simp [build_fhir_bundle, Bundle.theClaim, Bundle.fhirClaims,
        List.filterMap_append, List.filterMap_cons, filterMap_claim_of_conditions, h,
        List.all_append, em_items_servicedDate_none, build_items_servicedDate_none]
    · simp [build_fhir_bundle, Bundle.theClaim, Bundle.fhirClaims,
        List.filterMap_append, List.filterMap_cons, filterMap_claim_of_conditions, h,
        build_claim_procedures_date_none]
  · intro h
    rcases h with h | h <;>
      simp [build_fhir_bundle, Bundle.theClaim, Bundle.fhirClaims,
        List.filterMap_append, List.filterMap_cons, filterMap_claim_of_conditions, h]
  · intro h
    cases hm : env.meta with
    | none =>
      simp [build_fhir_bundle, Bundle.theClaim, Bundle.fhirClaims,
        List.filterMap_append, List.filterMap_cons, filterMap_claim_of_conditions, hm]
    | some m =>
      rw [hm] at h
      simp only [Option.getD_some] at h
      simp [build_fhir_bundle, Bundle.theClaim, Bundle.fhirClaims,
        List.filterMap_append, List.filterMap_cons, filterMap_claim_of_conditions, hm, h]
  · intro h
    have hnote : (match env.clinical_note with
        | some cn => cn.text_preview.getD ""
        | none => "") = "" := by
      cases hcn : env.clinical_note with
      | none => rfl
      | some cn =>
        rw [hcn] at h
        simp only [Option.getD_some] at h
        simp [h]
    simp only [tiny_rules, hnote]
    rfl
  · rfl

/-- Closed instance of `assemble_defaults_on_missing_fields` at a partial
envelope: every parent object present, every sub-field absent, discharging
each hypothesis. -/
theorem assemble_defaults_on_missing_fields_witness :
    ((build_fhir_bundle ⟨some ⟨none, none, none, none, none, none⟩, some ⟨none, none, none⟩,
        some ⟨none⟩, some "", some ⟨none⟩⟩ [] cpt_em_default [] []
        "a" "b" "c" (fun _ => "d") "t" "u" "v").thePatient.map (·.mrn)) = some "" ∧
    ((build_fhir_bundle ⟨some ⟨none, none, none, none, none, none⟩, some ⟨none, none, none⟩,
        some ⟨none⟩, some "", some ⟨none⟩⟩ [] cpt_em_default [] []
        "a" "b" "c" (fun _ => "d") "t" "u" "v").thePatient.map (·.gender)) = some "unknown" ∧
    ((build_fhir_bundle ⟨some ⟨none, none, none, none, none, none⟩, some ⟨none, none, none⟩,
        some ⟨none⟩, some "", some ⟨none⟩⟩ [] cpt_em_default [] []
        "a" "b" "c" (fun _ => "d") "t" "u" "v").theEncounter.map (·.period_start))
      = some none ∧
    ((build_fhir_bundle ⟨some ⟨none, none, none, none, none, none⟩, some ⟨none, none, none⟩,
        some ⟨none⟩, some "", some ⟨none⟩⟩ [] cpt_em_default [] []
        "a" "b" "c" (fun _ => "d") "t" "u" "v").theClaim.map (·.ext_claim_id_input))
      = some ("clm-" ++ "c") ∧
    ((build_fhir_bundle ⟨some ⟨none, none, none, none, none, none⟩, some ⟨none, none, none⟩,
        some ⟨none⟩, some "", some ⟨none⟩⟩ [] cpt_em_default [] []
        "a" "b" "c" (fun _ => "d") "t" "u" "v").theClaim.map (·.ext_source)) = some "" ∧
    tiny_rules ⟨some ⟨none, none, none, none, none, none⟩, some ⟨none, none, none⟩,
        some ⟨none⟩, some "", some ⟨none⟩⟩ = ⟨[], cpt_em_default, [], []⟩ := by
  have h := assemble_defaults_on_missing_fields
    ⟨some ⟨none, none, none, none, none, none⟩, some ⟨none, none, none⟩,
      some ⟨none⟩, some "", some ⟨none⟩⟩ [] cpt_em_default [] []
    "a" "b" "c" (fun _ => "d") "t" "u" "v"
  exact ⟨h.1 rfl, h.2.2.2.1 rfl, (h.2.2.2.2.2.2.2.2.1 rfl).1,
    h.2.2.2.2.2.2.2.2.2.1 (Or.inr rfl), h.2.2.2.2.2.2.2.2.2.2.1 rfl,
    h.2.2.2.2.2.2.2.2.2.2.2.1 rfl⟩

theorem em_items_encounters (enc_id : String) (date : Option String) (cpt : CptEm)
    (it : ClaimItem) :
    it ∈ (if cpt.code = "" then []
        else [mk_item enc_id date 1 cpt.system cpt.code cpt.display]) →
      it.encounter = [fhir_ref "Encounter" enc_id] := by
  split
  · intro h
    cases h
  · intro h
    rcases List.mem_singleton.mp h with rfl
    rfl

theorem resolves_intro (b : Bundle) (res : Resource) (r : Ref)
    (hmem : res ∈ b.entry) (h : resourceRefString res = r.reference) :
    b.resolves r = true := by
  simp only [Bundle.resolves]
  exact List.any_eq_true.mpr ⟨res, hmem, by simp [h]⟩

/-- C1: the assembled bundle holds exactly one Patient, one Encounter, one
Claim and one Condition per diagnosis entry, and every reference string in
the bundle (Encounter subject, Claim patient, Claim.diagnosis references,
Claim.item encounter references, Condition subject/encounter) names a
resource present in the same bundle. -/
theorem assemble_counts_and_refs_resolve (env : Envelope) (icd : List DxEntry)
    (cpt : CptEm) (procs hs : List CodeEntry) (ps es cs : String) (cf : Nat → String)
    (cr bs ts : String) :
    (build_fhir_bundle env icd cpt procs hs ps es cs cf cr bs ts).patients.length = 1 ∧
    (build_fhir_bundle env icd cpt procs hs ps es cs cf cr bs ts).encounters.length = 1 ∧
    (build_fhir_bundle env icd cpt procs hs ps es cs cf cr bs ts).fhirClaims.length = 1 ∧
    (build_fhir_bundle env icd cpt procs hs ps es cs cf cr bs ts).conditions.length
      = icd.length ∧
    ((build_fhir_bundle env icd cpt procs hs ps es cs cf cr bs ts).refs.all
      (fun r => (build_fhir_bundle env icd cpt procs hs ps es cs cf cr bs ts).resolves r))
      = true := by
  refine ⟨?_, ?_, ?_, ?_, ?_⟩
  · simp [build_fhir_bundle, Bundle.patients, List.filterMap_append, List.filterMap_cons,
      filterMap_patient_of_conditions]
  · simp [build_fhir_bundle, Bundle.encounters, List.filterMap_append, List.filterMap_cons,
      filterMap_encounter_of_conditions]
  · simp [build_fhir_bundle, Bundle.fhirClaims, List.filterMap_append, List.filterMap_cons,
      filterMap_claim_of_conditions]
  · simp only [build_fhir_bundle, Bundle.conditions, List.filterMap_append,
      List.filterMap_cons, List.filterMap_nil, filterMap_condition_of_conditions,
      List.nil_append]
    exact build_conditions_fst_length _ _ _ _ _
  · have hpat : (build_fhir_bundle env icd cpt procs hs ps es cs cf cr bs ts).resolves
        (fhir_ref "Patient" ("pat-" ++ ps)) = true := by
      simp [build_fhir_bundle, Bundle.resolves, resourceRefString, fhir_ref]
    have henc : (build_fhir_bundle env icd cpt procs hs ps es cs cf cr bs ts).resolves
        (fhir_ref "Encounter" ("enc-" ++ es)) = true := by
      simp [build_fhir_bundle, Bundle.resolves, resourceRefString, fhir_ref]
    have hcond : ∀ i, i ∈ List.range' 1 icd.length →
        (build_fhir_bundle env icd cpt procs hs ps es cs cf cr bs ts).resolves
          (fhir_ref "Condition" ("cond-" ++ cf i)) = true := by
      intro i hi
      have hidmem : ("cond-" ++ cf i) ∈
          ((build_conditions ("pat-" ++ ps) ("enc-" ++ es) cf 1 icd).1).map (·.id) := by
        rw [build_conditions_fst_ids]
        exact List.mem_map_of_mem _ hi
      rcases List.mem_map.mp hidmem with ⟨c, hc, hcid⟩
      have hmem : Resource.condition c ∈
          (build_fhir_bundle env icd cpt procs hs ps es cs cf cr bs ts).entry := by
        simp only [build_fhir_bundle]
        exact List.mem_append.mpr (Or.inr (List.mem_map_of_mem _ hc))
      exact resolves_intro _ (Resource.condition c) _ hmem
        (by simp [resourceRefString, hcid, fhir_ref])
    have hshape : ∀ r ∈ (build_fhir_bundle env icd cpt procs hs ps es cs cf cr bs ts).refs,
        r = fhir_ref "Patient" ("pat-" ++ ps) ∨ r = fhir_ref "Encounter" ("enc-" ++ es) ∨
          ∃ i ∈ List.range' 1 icd.length, r = fhir_ref "Condition" ("cond-" ++ cf i) := by
      intro r hr
      simp only [Bundle.refs, build_fhir_bundle] at hr
      rcases List.mem_flatMap.mp hr with ⟨res, hres, hrf⟩
      simp only [List.mem_append, List.mem_cons, List.not_mem_nil, or_false] at hres
      rcases hres with (rfl | rfl | rfl) | hres
      · simp at hrf
      · simp only [List.mem_singleton] at hrf
        exact Or.inl hrf
      · simp only [List.mem_append, List.mem_cons, List.not_mem_nil, or_false] at hrf
        rcases hrf with (rfl | hdiag) | hitem
        · exact Or.inl rfl
        · rw [build_conditions_snd_refs] at hdiag
          rcases List.mem_map.mp hdiag with ⟨i, hi, rfl⟩
          exact Or.inr (Or.inr ⟨i, hi, rfl⟩)
        · rcases List.mem_flatMap.mp hitem with ⟨it, hit, hr2⟩
          have henc2 : it.encounter = [fhir_ref "Encounter" ("enc-" ++ es)] := by
            rcases List.mem_append.mp hit with hit' | hit'
            · rcases List.mem_append.mp hit' with hit2 | hit2
              · exact em_items_encounters _ _ _ _ hit2
              · exact build_items_encounters _ _ _ _ _ hit2
            · exact build_items_encounters _ _ _ _ _ hit'
          rw [henc2] at hr2
          exact Or.inr (Or.inl (List.mem_singleton.mp hr2))
      · rcases List.mem_map.mp hres with ⟨c, hc, rfl⟩
        simp only [List.mem_cons, List.not_mem_nil, or_false] at hrf
        rcases build_conditions_fst_links ("pat-" ++ ps) ("enc-" ++ es) cf 1 icd c hc
          with ⟨hsub, henc3⟩
        rcases hrf with rfl | rfl
        · exact Or.inl hsub
        · exact Or.inr (Or.inl henc3)
    rw [List.all_eq_true]
    intro r hr
    rcases hshape r hr with h | h | ⟨i, hi, h⟩ <;> subst h
    · exact hpat
    · exact henc
    · exact hcond i hi

end Gooclaim

